import Mathlib

/-
Verification of the job-application dashboard pipeline (src/main7.py and
src/app.py) against its natural-language specification.

The Python code is shallowly embedded as follows.

A fetched spreadsheet is a list of rows; every row is an association list
from (already trimmed and lower-cased) column name to an optional raw
string value, with missing (NaN) cells modelled as none.  Python string
operations used by the code (str.lower, str.strip, substring containment
via pandas str.contains on literal alternation patterns, str.split) are
modelled character-wise on String.data so that every definition evaluates
inside the kernel.  The Python expression round((p/t)*100) on ints p, t
is modelled exactly: the true division and the multiplication are each
rounded to the nearest IEEE 754 binary64 value (ties to even, 53
significand bits, subnormal exponent floor), and round then rounds the
resulting float to the nearest integer with ties to even; every step is
an exact computation on integer fractions, so the model reproduces
outputs such as 57 for 23 of 40, where the exact rational 57.5 would
round to 58.
Date parsing by
pandas.to_datetime is kept abstract: all definitions take a parameter
parse : String -> Option Int (none models NaT, the coerce failure marker);
the claims under study quantify over that parser rather than over pandas
internals.
-/

namespace JobTracker

/-- A cell of the fetched table: none models a missing (NaN) value. -/
abbrev Cell := Option String

/-- One row of the fetched table, keyed by column name. -/
abbrev Row := List (String × Cell)

/-- Reading a cell from a row: df[col] for one row; missing key or NaN
both surface as none. -/
def getVal (r : Row) (c : String) : Option String :=
  (r.lookup c).getD none

/-- Model of Python str.lower applied character-wise. -/
def lowerStr (s : String) : String :=
  String.mk (s.data.map Char.toLower)

/-- Model of Python str.strip: drop whitespace at both ends. -/
def stripStr (s : String) : String :=
  String.mk (((s.data.dropWhile Char.isWhitespace).reverse.dropWhile
      Char.isWhitespace).reverse)

/-- Header normalisation performed on fetch: col.strip().lower()
(src/main7.py line 461). -/
def normalizeHeader (s : String) : String :=
  lowerStr (stripStr s)

/-- The column map derived fresh from the (already normalised) headers of
the current fetch: the dict comprehension col.lower() to col
(src/main7.py line 467). -/
def derived_column_map (headers : List String) : List (String × String) :=
  headers.map (fun h => (lowerStr h, h))

/-- Embedding of get_column_if_exists (src/main7.py lines 280-286,
src/app.py lines 275-281): iterate over the synonym list col_names in its
given order and return the column bound to the first synonym whose
lower-cased text is a key of column_map. -/
def get_column_if_exists (column_map : List (String × String))
    (col_names : List String) : Option String :=
  match col_names with
  | [] => none
  | c :: rest =>
    match column_map.lookup (lowerStr c) with
    | some orig => some orig
    | none => get_column_if_exists column_map rest

/-- Synonym list for the Status role (src/main7.py line 289 and callers). -/
def statusSynonyms : List String := ["status", "application status", "job status"]

/-- Synonym list for the Date role (src/main7.py line 305 and callers). -/
def dateSynonyms : List String := ["date", "application date", "applied on", "apply date"]

/-- Synonym list for the Company role (src/main7.py line 383). -/
def companySynonyms : List String := ["company", "organization", "employer"]

/-- Modelled from the spec: the binding order the specification describes
for column resolution, namely scanning the headers in their original order
and binding the first header whose normalised text equals a synonym.  This
definition follows the words of the spec and is compared against the
source definition get_column_if_exists. -/
def resolve_by_header_order (headers : List String)
    (col_names : List String) : Option String :=
  (headers.map normalizeHeader).find?
    (fun h => col_names.any (fun c => h == lowerStr c))

theorem lookup_isSome_iff (m : List (String × String)) (k : String) :
    (m.lookup k).isSome = true ↔ k ∈ m.map Prod.fst := by
  induction m with
  | nil => simp
  | cons p rest ih =>
    obtain ⟨a, b⟩ := p
    by_cases h : k = a
    · subst h; simp [List.lookup]
    · have hb : (k == a) = false := by simp [h]
      simp [List.lookup, hb, h, ih]

theorem get_col_eq_find (m : List (String × String)) (syns : List String) :
    get_column_if_exists m syns =
      (syns.find? (fun c => decide (lowerStr c ∈ m.map Prod.fst))).bind
        (fun c => m.lookup (lowerStr c)) := by
  induction syns with
  | nil => rfl
  | cons c rest ih =>
    rw [get_column_if_exists]
    cases hl : m.lookup (lowerStr c) with
    | some o =>
      have hmem : lowerStr c ∈ m.map Prod.fst :=
        (lookup_isSome_iff m (lowerStr c)).1 (by simp [hl])
      simp [List.find?_cons, hmem, hl]
    | none =>
      by_cases hmem : lowerStr c ∈ m.map Prod.fst
      · have : (m.lookup (lowerStr c)).isSome = true :=
          (lookup_isSome_iff m (lowerStr c)).2 hmem
        rw [hl] at this
        simp at this
      · simp [List.find?_cons, hmem, hl, ih]

theorem keys_derived_column_map (hs : List String) :
    (derived_column_map hs).map Prod.fst = hs.map lowerStr := by
  simp [derived_column_map, List.map_map]

/-- Claim C1 (counterexample). The claim states that when several headers
match synonyms of a role, the binding scans headers in their original
order and binds the first matching header, rather than binding by the
ranked order of the synonym list.  On the header list
["application status", "status"] the source function binds "status",
the top-ranked synonym, while the header-order rule described by the claim
would bind "application status", the first matching header. -/
theorem C1_resolution_counterexample :
    get_column_if_exists
        (derived_column_map (["application status", "status"].map normalizeHeader))
        statusSynonyms = some "status"
    ∧ resolve_by_header_order ["application status", "status"] statusSynonyms =
        some "application status"
    ∧ ("status" : String) ≠ "application status" := by
  refine ⟨by decide, by decide, by decide⟩

/-- Claim C1 (amended). For each role, the role resolves iff some header
has normalised (trimmed, lower-cased) text exactly equal to one of the
role synonyms; at most one header is ever bound since the result is a
single optional column; and when several headers match, the binding
follows the ranked order of the synonym list: the result is obtained from
the first synonym, in list order, whose lower-cased text equals the
normalised text of some header. -/
theorem C1_resolution_by_synonym_rank (headers syns : List String) :
    ((get_column_if_exists (derived_column_map (headers.map normalizeHeader))
        syns).isSome = true ↔
      ∃ h ∈ headers, ∃ c ∈ syns, lowerStr (normalizeHeader h) = lowerStr c)
    ∧ get_column_if_exists (derived_column_map (headers.map normalizeHeader))
        syns =
      (syns.find? (fun c =>
        decide (lowerStr c ∈ headers.map (fun h => lowerStr (normalizeHeader h))))).bind
        (fun c => (derived_column_map (headers.map normalizeHeader)).lookup
          (lowerStr c)) := by
  have hkeys : (derived_column_map (headers.map normalizeHeader)).map Prod.fst
      = headers.map (fun h => lowerStr (normalizeHeader h)) := by
    rw [keys_derived_column_map, List.map_map]
    rfl
  have hchar := get_col_eq_find (derived_column_map (headers.map normalizeHeader)) syns
  rw [hkeys] at hchar
  refine ⟨?_, hchar⟩
  rw [hchar]
  constructor
  · intro hsome
    cases hfind : syns.find? (fun c =>
        decide (lowerStr c ∈ headers.map (fun h => lowerStr (normalizeHeader h)))) with
    | none => rw [hfind] at hsome; simp at hsome
    | some c =>
      have hc := List.find?_some hfind
      have hcmem := List.mem_of_find?_eq_some hfind
      simp only [decide_eq_true_eq, List.mem_map] at hc
      obtain ⟨h, hh, hlow⟩ := hc
      exact ⟨h, hh, c, hcmem, hlow⟩
  · rintro ⟨h, hh, c, hc, hlow⟩
    have hp : (fun c =>
        decide (lowerStr c ∈ headers.map (fun h => lowerStr (normalizeHeader h)))) c = true := by
      simp only [decide_eq_true_eq, List.mem_map]
      exact ⟨h, hh, hlow⟩
    have hex : ∃ x ∈ syns, (fun c =>
        decide (lowerStr c ∈ headers.map (fun h => lowerStr (normalizeHeader h)))) x = true :=
      ⟨c, hc, hp⟩
    obtain ⟨c₀, hfind⟩ := Option.isSome_iff_exists.1 ((List.find?_isSome).2 hex)
    rw [hfind]
    have hc₀ := List.find?_some hfind
    simp only [decide_eq_true_eq] at hc₀
    have : (((derived_column_map (headers.map normalizeHeader))).lookup
        (lowerStr c₀)).isSome = true := by
      rw [lookup_isSome_iff, hkeys]
      exact hc₀
    simpa [Option.bind] using this

/-- Substring containment on character lists: true iff sep occurs as a
contiguous block.  Models both Python in on strings and the pandas
str.contains tests, whose patterns in this code are alternations of
plain literals. -/
def containsSeq (sep : List Char) : List Char → Bool
  | [] => sep.isEmpty
  | c :: cs => sep.isPrefixOf (c :: cs) || containsSeq sep cs

/-- Case-insensitive match of a raw cell against a list of literal
patterns, as performed by df[col].str.lower().str.contains(pattern,
na=False): a missing value never matches. -/
def matchesAny (pats : List String) (v : Option String) : Bool :=
  match v with
  | none => false
  | some s => pats.any (fun p => containsSeq p.data (lowerStr s).data)

/-- Pattern of the success-rate regex (src/main7.py line 295). -/
def successPatterns : List String := ["approved", "shortlisted", "interview", "offer"]

/-- Pattern of the Approved counter (src/main7.py line 478). -/
def approvedPatterns : List String := ["approved", "offer", "accepted"]

/-- Pattern of the Interviews counter (src/main7.py line 479). -/
def interviewPatterns : List String := ["interview"]

/-- Pattern of the rejected count (src/main7.py line 480). -/
def rejectedPatterns : List String := ["rejected", "declined"]

/-- Round the non-negative fraction n / d (with d positive) to the
nearest integer with ties to even: the rule Python round applies to the
exact value of its float argument, and the rounding rule of IEEE 754
arithmetic.  Fractions are carried as plain numerator-denominator pairs,
never reduced, so every step evaluates inside the kernel. -/
def roundHalfEvenFrac (n d : Nat) : Nat :=
  let q := n / d
  let r := n % d
  if 2 * r < d then q
  else if d < 2 * r then q + 1
  else if q % 2 = 0 then q else q + 1

/-- Fuel-driven floor of the base-two logarithm of a natural number;
structural in the fuel so that it evaluates inside the kernel. -/
def natLog2Aux : Nat → Nat → Nat
  | 0, _ => 0
  | fuel + 1, n => if 2 ≤ n then natLog2Aux fuel (n / 2) + 1 else 0

/-- Floor of the base-two logarithm of a positive natural number. -/
def natLog2 (n : Nat) : Nat := natLog2Aux n n

/-- Test n / d < 2^e by cross multiplication, for any integer e. -/
def fracLtPow2 (n d : Nat) (e : Int) : Bool :=
  if 0 ≤ e then n < 2 ^ e.toNat * d else n * 2 ^ (-e).toNat < d

/-- Floor of the base-two logarithm of the positive fraction n / d: the
bit-length difference of numerator and denominator brackets the value
between two candidate exponents, and one exact comparison decides. -/
def floorLog2Frac (n d : Nat) : Int :=
  let e : Int := (natLog2 n : Int) - (natLog2 d : Int)
  if fracLtPow2 n d e then e - 1 else e

/-- Round the non-negative fraction n / d to the nearest IEEE 754
binary64 value, ties to even: the unit in the last place is two to the
power of the exponent minus 52, floored at the subnormal limit.  The
result is returned as a numerator-denominator pair whose denominator is
the corresponding power of two.  This is the exact outcome of one
correctly rounded double operation; the magnitudes arising here stay
far below the overflow threshold. -/
def roundToF64Frac (n d : Nat) : Nat × Nat :=
  if n = 0 then (0, 1)
  else
    let e := floorLog2Frac n d
    let ulpe : Int := max (e - 52) (-1074)
    if 0 ≤ ulpe then
      (roundHalfEvenFrac n (d * 2 ^ ulpe.toNat) * 2 ^ ulpe.toNat, 1)
    else
      (roundHalfEvenFrac (n * 2 ^ (-ulpe).toNat) d, 2 ^ (-ulpe).toNat)

/-- The Python expression round((positive_outcomes/total)*100) on ints
(src/main7.py line 296): the true division p / t rounds to the nearest
double, the multiplication by 100 rounds its exact product to the
nearest double, and round rounds that float to the nearest integer with
ties to even. -/
def pyRoundPct (p t : Nat) : Nat :=
  let x1 := roundToF64Frac p t
  let x2 := roundToF64Frac (x1.1 * 100) x1.2
  roundHalfEvenFrac x2.1 x2.2

/-- Embedding of calculate_success_rate (src/main7.py lines 288-296). -/
def calculate_success_rate (column_map : List (String × String))
    (rows : List Row) : String :=
  match get_column_if_exists column_map statusSynonyms with
  | none => "N/A"
  | some status_col =>
    if rows.length = 0 then "0%"
    else
      let positive_outcomes :=
        (rows.filter (fun r => matchesAny successPatterns (getVal r status_col))).length
      toString (pyRoundPct positive_outcomes rows.length) ++ "%"

/-- Float behaviour of the percentage model at inputs where it differs
from exact rational rounding: 23 of 40 renders 57 (the float product is
just below 57.5), 109 of 200 renders 55 (just above 54.5), and the
exactly representable 12.5 of 1 in 8 ties to even. -/
theorem pyRoundPct_float_spots :
    pyRoundPct 23 40 = 57 ∧ pyRoundPct 109 200 = 55 ∧ pyRoundPct 1 8 = 12 := by
  refine ⟨by decide, by decide, by decide⟩

/-- Embedding of count_status (src/main7.py lines 298-302); the regex
alternation pattern is passed as the list of its literal branches. -/
def count_status (column_map : List (String × String)) (rows : List Row)
    (pats : List String) : Nat :=
  match get_column_if_exists column_map statusSynonyms with
  | none => 0
  | some status_col =>
    (rows.filter (fun r => matchesAny pats (getVal r status_col))).length

/-- Claim C2. The success-rate counter is "N/A" when no header resolves
the Status role; "0%" when the Status role resolves and the row count is
zero; and otherwise the rounded percentage of rows whose raw status text
case-insensitively substring-matches one of approved, shortlisted,
interview, offer, over the total number of rows. -/
theorem C2_success_rate (column_map : List (String × String)) (rows : List Row) :
    (get_column_if_exists column_map statusSynonyms = none →
      calculate_success_rate column_map rows = "N/A")
    ∧ (∀ c, get_column_if_exists column_map statusSynonyms = some c → rows = [] →
      calculate_success_rate column_map rows = "0%")
    ∧ (∀ c, get_column_if_exists column_map statusSynonyms = some c → rows ≠ [] →
      calculate_success_rate column_map rows =
        toString (pyRoundPct
          (rows.filter (fun r => matchesAny successPatterns (getVal r c))).length
          rows.length) ++ "%") := by
  refine ⟨?_, ?_, ?_⟩
  · intro h
    simp [calculate_success_rate, h]
  · intro c h hrows
    subst hrows
    simp [calculate_success_rate, h]
  · intro c h hrows
    have hlen : ¬ rows.length = 0 := by
      simpa [List.length_eq_zero] using hrows
    simp [calculate_success_rate, h, hlen]

/-- Witness for claim C2: a concrete dataset with a resolved status
column, one success row out of two, giving fifty percent. -/
theorem C2_success_rate_witness :
    calculate_success_rate [("status", "status")]
      [[("status", some "Approved")], [("status", some "Applied")]] = "50%" := by
  have h := (C2_success_rate [("status", "status")]
      [[("status", some "Approved")], [("status", some "Applied")]]).2.2 "status"
      (by decide) (by decide)
  rw [h]
  decide

/-- Claim C10. When the Status role is absent every status-category count
is zero and the success rate alone signals the absence via "N/A"; a
resolved status column in which no row matches a category yields the same
zero count, so the two situations are indistinguishable in the headline
counters; rows whose status value is missing never match any category
pattern, yet they are counted in the success-rate denominator, which is
the full row count. -/
theorem C10_absent_status_counts (column_map : List (String × String))
    (rows : List Row) :
    (get_column_if_exists column_map statusSynonyms = none →
      count_status column_map rows interviewPatterns = 0
      ∧ count_status column_map rows approvedPatterns = 0
      ∧ count_status column_map rows rejectedPatterns = 0
      ∧ calculate_success_rate column_map rows = "N/A")
    ∧ (∀ c pats, get_column_if_exists column_map statusSynonyms = some c →
      (∀ r ∈ rows, matchesAny pats (getVal r c) = false) →
      count_status column_map rows pats = 0)
    ∧ (∀ c, get_column_if_exists column_map statusSynonyms = some c →
      ∀ r ∈ rows, getVal r c = none →
      ∀ pats, matchesAny pats (getVal r c) = false)
    ∧ (∀ c, get_column_if_exists column_map statusSynonyms = some c → rows ≠ [] →
      calculate_success_rate column_map rows =
        toString (pyRoundPct
          (rows.filter (fun r => matchesAny successPatterns (getVal r c))).length
          rows.length) ++ "%") := by
  refine ⟨?_, ?_, ?_, ?_⟩
  · intro h
    refine ⟨?_, ?_, ?_, ?_⟩ <;> simp [count_status, calculate_success_rate, h]
  · intro c pats h hnone
    simp only [count_status, h]
    rw [List.length_eq_zero, List.filter_eq_nil_iff]
    intro r hr
    simp [hnone r hr]
  · intro c h r hr hnone pats
    rw [hnone]
    rfl
  · intro c h hrows
    have hlen : ¬ rows.length = 0 := by
      simpa [List.length_eq_zero] using hrows
    simp [calculate_success_rate, h, hlen]

/-- Witness for claim C10: with no status column the counters are zero
and the success rate is "N/A"; with a status column, a three-row dataset
with one interview match and one missing status gives a denominator of
three and a success rate of thirty-three percent. -/
theorem C10_absent_status_counts_witness :
    (count_status [("company", "company")] [[("company", some "Acme")]]
        interviewPatterns = 0
      ∧ count_status [("company", "company")] [[("company", some "Acme")]]
        approvedPatterns = 0
      ∧ count_status [("company", "company")] [[("company", some "Acme")]]
        rejectedPatterns = 0
      ∧ calculate_success_rate [("company", "company")] [[("company", some "Acme")]]
        = "N/A")
    ∧ calculate_success_rate [("status", "status")]
        [[("status", some "Interview")], [("status", none)],
         [("status", some "Applied")]] = "33%" := by
  constructor
  · exact (C10_absent_status_counts [("company", "company")]
      [[("company", some "Acme")]]).1 (by decide)
  · have h := (C10_absent_status_counts [("status", "status")]
        [[("status", some "Interview")], [("status", none)],
         [("status", some "Applied")]]).2.2.2 "status" (by decide) (by decide)
    rw [h]
    decide

/-- Insertion of x into a list, placing it before the first element y
with le x y, so that elements equal under the order keep the incoming
element first. -/
def insertLe {α : Type} (le : α → α → Bool) (x : α) : List α → List α
  | [] => [x]
  | y :: ys => if le x y then x :: y :: ys else y :: insertLe le x ys

/-- Stable insertion sort by the boolean relation le; the model used for
the sorting steps performed inside pandas. -/
def sortLe {α : Type} (le : α → α → Bool) : List α → List α
  | [] => []
  | x :: xs => insertLe le x (sortLe le xs)

theorem mem_insertLe {α : Type} (le : α → α → Bool) (x : α) (l : List α)
    (a : α) : a ∈ insertLe le x l ↔ a = x ∨ a ∈ l := by
  induction l with
  | nil => simp [insertLe]
  | cons y ys ih =>
    by_cases h : le x y = true
    · simp [insertLe, h]
    · simp only [insertLe, h, if_false, Bool.false_eq_true, if_neg, List.mem_cons, ih]
      tauto

theorem insertLe_perm {α : Type} (le : α → α → Bool) (x : α) (l : List α) :
    (insertLe le x l).Perm (x :: l) := by
  induction l with
  | nil => exact List.Perm.refl _
  | cons y ys ih =>
    by_cases h : le x y = true
    · simp [insertLe, h]
    · simp only [insertLe, h, if_neg, Bool.false_eq_true]
      exact ((List.perm_cons y).2 ih).trans (List.Perm.swap x y ys)

theorem sortLe_perm {α : Type} (le : α → α → Bool) (l : List α) :
    (sortLe le l).Perm l := by
  induction l with
  | nil => exact List.Perm.refl _
  | cons x xs ih =>
    exact (insertLe_perm le x (sortLe le xs)).trans ((List.perm_cons x).2 ih)

theorem insertLe_pairwise {α : Type} (le : α → α → Bool)
    (htot : ∀ a b, le a b = false → le b a = true)
    (htrans : ∀ a b c, le a b = true → le b c = true → le a c = true)
    (x : α) (l : List α) (hl : l.Pairwise (fun a b => le a b = true)) :
    (insertLe le x l).Pairwise (fun a b => le a b = true) := by
  induction l with
  | nil => simp [insertLe]
  | cons y ys ih =>
    rcases List.pairwise_cons.1 hl with ⟨hy, hys⟩
    by_cases h : le x y = true
    · simp only [insertLe, h, if_true]
      refine List.pairwise_cons.2 ⟨?_, hl⟩
      intro z hz
      rcases List.mem_cons.1 hz with rfl | hz
      · exact h
      · exact htrans x y z h (hy z hz)
    · simp only [insertLe, h, if_neg, Bool.false_eq_true]
      refine List.pairwise_cons.2 ⟨?_, ih hys⟩
      intro z hz
      rcases (mem_insertLe le x ys z).1 hz with rfl | hz
      · exact htot z y (by simpa using h)
      · exact hy z hz

theorem sortLe_pairwise {α : Type} (le : α → α → Bool)
    (htot : ∀ a b, le a b = false → le b a = true)
    (htrans : ∀ a b c, le a b = true → le b c = true → le a c = true)
    (l : List α) :
    (sortLe le l).Pairwise (fun a b => le a b = true) := by
  induction l with
  | nil => simp [sortLe]
  | cons x xs ih => exact insertLe_pairwise le htot htrans x (sortLe le xs) ih

theorem insertLe_filter {α : Type} (le : α → α → Bool) (p : α → Bool)
    (hp : ∀ a b, p a = true → p b = true → le a b = true)
    (x : α) (l : List α) :
    (insertLe le x l).filter p = (x :: l).filter p := by
  induction l with
  | nil => rfl
  | cons y ys ih =>
    by_cases h : le x y = true
    · simp [insertLe, h]
    · simp only [insertLe, h, if_neg, Bool.false_eq_true]
      by_cases px : p x = true
      · have py : p y = false := by
          cases hy : p y
          · rfl
          · exact absurd (hp x y px hy) (by simpa using h)
        simp [List.filter_cons, px, py, ih]
      · have px' : p x = false := by simpa using px
        simp [List.filter_cons, px', ih]

theorem sortLe_filter {α : Type} (le : α → α → Bool) (p : α → Bool)
    (hp : ∀ a b, p a = true → p b = true → le a b = true)
    (l : List α) :
    (sortLe le l).filter p = l.filter p := by
  induction l with
  | nil => rfl
  | cons x xs ih =>
    rw [sortLe, insertLe_filter le p hp, List.filter_cons, List.filter_cons, ih]

/-- Distinct values of a list in order of first appearance, the key order
pandas value_counts produces before sorting by count. -/
def firstKeysAux (seen : List String) : List String → List String
  | [] => []
  | v :: vs =>
    if seen.contains v then firstKeysAux seen vs
    else v :: firstKeysAux (v :: seen) vs

/-- Distinct values of a list in first-encountered order. -/
def firstKeys (vals : List String) : List String := firstKeysAux [] vals

/-- Model of pandas Series.value_counts with default settings: each
distinct value with its frequency, sorted descending by frequency with a
stable sort, so that equal counts keep first-encountered order. -/
def value_counts (vals : List String) : List (String × Nat) :=
  sortLe (fun a b => decide (b.2 ≤ a.2))
    ((firstKeys vals).map (fun k => (k, vals.count k)))

/-- Result of building one chart: either a populated chart or the
placeholder produced by create_empty_figure with its message. -/
inductive CompanyResult
  | placeholder (msg : String)
  | chart (entries : List (String × Nat))
deriving DecidableEq

/-- Embedding of create_company_distribution (src/main7.py lines
382-402): resolve the Company role, give a placeholder when the role is
absent or every value is missing, otherwise chart the first ten entries
of value_counts. -/
def create_company_distribution (column_map : List (String × String))
    (rows : List Row) : CompanyResult :=
  match get_column_if_exists column_map companySynonyms with
  | none =>
    .placeholder "Company distribution not available - no company column found"
  | some company_col =>
    let vals := rows.filterMap (fun r => getVal r company_col)
    if vals.isEmpty then
      .placeholder "Company distribution not available - no company data"
    else
      .chart ((value_counts vals).take 10)

/-- Claim C6. With a resolved Company role and at least one non-missing
company value, the company chart holds at most ten entries, ordered
descending by frequency of the company value, each entry carrying the
frequency of its value, and entries of equal frequency keeping the
first-encountered order of the distinct values; when the Company role is
absent or every company value is missing, an explanatory placeholder is
produced instead. -/
theorem C6_company_distribution (column_map : List (String × String))
    (rows : List Row) :
    (get_column_if_exists column_map companySynonyms = none →
      create_company_distribution column_map rows =
        .placeholder "Company distribution not available - no company column found")
    ∧ (∀ cc, get_column_if_exists column_map companySynonyms = some cc →
      rows.filterMap (fun r => getVal r cc) = [] →
      create_company_distribution column_map rows =
        .placeholder "Company distribution not available - no company data")
    ∧ (∀ cc, get_column_if_exists column_map companySynonyms = some cc →
      ∀ vals, vals = rows.filterMap (fun r => getVal r cc) → vals ≠ [] →
      create_company_distribution column_map rows =
        .chart ((value_counts vals).take 10)
      ∧ ((value_counts vals).take 10).length ≤ 10
      ∧ ((value_counts vals).take 10).Pairwise (fun a b => b.2 ≤ a.2)
      ∧ (∀ p ∈ (value_counts vals).take 10, p.2 = vals.count p.1)
      ∧ (∀ n, ((value_counts vals).take 10).filter (fun p => decide (p.2 = n)) <+:
          ((firstKeys vals).map (fun k => (k, vals.count k))).filter
            (fun p => decide (p.2 = n)))) := by
  refine ⟨?_, ?_, ?_⟩
  · intro h
    simp [create_company_distribution, h]
  · intro cc h hvals
    simp [create_company_distribution, h, hvals]
  · intro cc h vals hvals hne
    have hemp : (rows.filterMap (fun r => getVal r cc)).isEmpty = false := by
      rw [← hvals]
      cases vals with
      | nil => exact absurd rfl hne
      | cons a as => rfl
    refine ⟨?_, ?_, ?_, ?_, ?_⟩
    · simp [create_company_distribution, h, hemp, hvals]
    · exact List.length_take_le 10 _
    · have hs := sortLe_pairwise (fun a b : String × Nat => decide (b.2 ≤ a.2))
        (by intro a b hab; simp only [decide_eq_false_iff_not, not_le] at hab
            exact decide_eq_true (le_of_lt hab))
        (by intro a b c hab hbc
            simp only [decide_eq_true_eq] at hab hbc
            exact decide_eq_true (le_trans hbc hab))
        ((firstKeys vals).map (fun k => (k, vals.count k)))
      have hpw : (value_counts vals).Pairwise (fun a b : String × Nat => b.2 ≤ a.2) := by
        refine hs.imp ?_
        intro a b hab
        simpa using hab
      exact List.Pairwise.sublist (List.take_sublist 10 _) hpw
    · intro p hp
      have hp₁ : p ∈ value_counts vals := List.take_subset 10 _ hp
      have hp₂ : p ∈ (firstKeys vals).map (fun k => (k, vals.count k)) :=
        ((sortLe_perm _ _).mem_iff).1 hp₁
      rcases List.mem_map.1 hp₂ with ⟨k, hk, hpk⟩
      rw [← hpk]
    · intro n
      have hpre : ((value_counts vals).take 10).filter (fun p => decide (p.2 = n)) <+:
          (value_counts vals).filter (fun p => decide (p.2 = n)) :=
        List.IsPrefix.filter _ ( List.take_prefix 10 _)
      have heq : (value_counts vals).filter (fun p => decide (p.2 = n)) =
          ((firstKeys vals).map (fun k => (k, vals.count k))).filter
            (fun p => decide (p.2 = n)) := by
        refine sortLe_filter _ _ ?_ _
        intro a b ha hb
        simp only [decide_eq_true_eq] at ha hb
        exact decide_eq_true (by rw [ha, hb])
      rw [← heq]
      exact hpre

/-- Witness for claim C6: three rows with companies Acme, Beta, Acme give
the chart entries Acme with frequency two, then Beta with frequency one. -/
theorem C6_company_distribution_witness :
    create_company_distribution [("company", "company")]
      [[("company", some "Acme")], [("company", some "Beta")],
       [("company", some "Acme")]] =
    CompanyResult.chart [("Acme", 2), ("Beta", 1)] := by
  have h := (C6_company_distribution [("company", "company")]
      [[("company", some "Acme")], [("company", some "Beta")],
       [("company", some "Acme")]]).2.2 "company" (by decide)
      ["Acme", "Beta", "Acme"] (by decide) (by decide)
  rw [h.1]
  decide

/-- One point of the timeline chart: date, status and the running count
of that status up to this point. -/
structure TLEntry where
  date : Int
  status : String
  count : Nat
deriving DecidableEq

/-- Running-count pass of create_timeline_chart (src/main7.py lines
356-364): walk the date-sorted pairs in order, skip pairs whose status is
missing, and emit for every remaining pair its date, status and the
incremented per-status counter. -/
def buildTL : List (Int × Option String) → (String → Nat) → List TLEntry
  | [], _ => []
  | (_, none) :: rest, cnt => buildTL rest cnt
  | (d, some s) :: rest, cnt =>
    { date := d, status := s, count := cnt s + 1 } ::
      buildTL rest (fun t => if t = s then cnt s + 1 else cnt t)

/-- Result of building the timeline: a populated chart or the
create_empty_figure placeholder with its message. -/
inductive TimelineResult
  | placeholder (msg : String)
  | chart (points : List TLEntry)
deriving DecidableEq

/-- Embedding of create_timeline_chart (src/main7.py lines 339-380).
The pandas date parser is abstracted by the parameter parse; a parse
result of none models the NaT marker produced by errors=coerce, and such
rows are dropped before sorting, exactly as dropna does. -/
def create_timeline_chart (parse : String → Option Int)
    (column_map : List (String × String)) (rows : List Row) : TimelineResult :=
  match get_column_if_exists column_map dateSynonyms,
        get_column_if_exists column_map statusSynonyms with
  | none, none => .placeholder "Timeline not available - missing date and status data"
  | none, some _ => .placeholder "Timeline not available - missing date data"
  | some _, none => .placeholder "Timeline not available - missing status data"
  | some date_col, some status_col =>
    let withDates := rows.filterMap (fun r =>
      ((getVal r date_col).bind parse).map (fun d => (d, getVal r status_col)))
    if withDates.isEmpty then
      .placeholder "Timeline not available - no valid dates found"
    else
      let sorted := sortLe (fun a b => decide (a.1 ≤ b.1)) withDates
      let pts := buildTL sorted (fun _ => 0)
      if pts.isEmpty then
        .placeholder "Timeline not available - no valid status data"
      else
        .chart pts

theorem mem_buildTL (l : List (Int × Option String)) (cnt : String → Nat)
    (e : TLEntry) (he : e ∈ buildTL l cnt) : (e.date, some e.status) ∈ l := by
  induction l generalizing cnt with
  | nil => simp [buildTL] at he
  | cons p rest ih =>
    obtain ⟨d, os⟩ := p
    cases os with
    | none =>
      rw [buildTL] at he
      exact List.mem_cons_of_mem _ (ih cnt he)
    | some s =>
      rw [buildTL] at he
      rcases List.mem_cons.1 he with rfl | he'
      · simp
      · exact List.mem_cons_of_mem _ (ih _ he')

theorem mem_buildTL_count_gt (l : List (Int × Option String))
    (cnt : String → Nat) (e : TLEntry) (he : e ∈ buildTL l cnt) :
    cnt e.status < e.count := by
  induction l generalizing cnt with
  | nil => simp [buildTL] at he
  | cons p rest ih =>
    obtain ⟨d, os⟩ := p
    cases os with
    | none =>
      rw [buildTL] at he
      exact ih cnt he
    | some s =>
      rw [buildTL] at he
      rcases List.mem_cons.1 he with rfl | he'
      · exact Nat.lt_succ_self _
      · have h' : (if e.status = s then cnt s + 1 else cnt e.status) < e.count :=
          ih _ he'
        by_cases hst : e.status = s
        · rw [if_pos hst] at h'
          rw [hst]
          omega
        · rw [if_neg hst] at h'
          exact h'

theorem buildTL_pairwise_status (l : List (Int × Option String))
    (cnt : String → Nat) :
    (buildTL l cnt).Pairwise (fun a b => a.status = b.status → a.count < b.count) := by
  induction l generalizing cnt with
  | nil => simp [buildTL]
  | cons p rest ih =>
    obtain ⟨d, os⟩ := p
    cases os with
    | none => rw [buildTL]; exact ih cnt
    | some s =>
      rw [buildTL]
      refine List.pairwise_cons.2 ⟨?_, ih _⟩
      intro z hz hst
      have h := mem_buildTL_count_gt _ _ _ hz
      simp only at hst
      rw [← hst] at h
      simpa [hst] using h

theorem buildTL_pairwise_date (l : List (Int × Option String))
    (cnt : String → Nat) (hl : l.Pairwise (fun p q => p.1 ≤ q.1)) :
    (buildTL l cnt).Pairwise (fun a b => a.date ≤ b.date) := by
  induction l generalizing cnt with
  | nil => simp [buildTL]
  | cons p rest ih =>
    rcases List.pairwise_cons.1 hl with ⟨hp, hrest⟩
    obtain ⟨d, os⟩ := p
    cases os with
    | none => rw [buildTL]; exact ih cnt hrest
    | some s =>
      rw [buildTL]
      refine List.pairwise_cons.2 ⟨?_, ih _ hrest⟩
      intro z hz
      exact hp _ (mem_buildTL _ _ _ hz)

theorem buildTL_count_eq (l : List (Int × Option String)) (cnt : String → Nat)
    (pre : List TLEntry) (e : TLEntry) (post : List TLEntry)
    (hsplit : buildTL l cnt = pre ++ e :: post) :
    e.count = cnt e.status + pre.countP (fun x => x.status == e.status) + 1 := by
  induction l generalizing cnt pre with
  | nil =>
    rw [buildTL] at hsplit
    exact absurd hsplit (by simp)
  | cons p rest ih =>
    obtain ⟨d, os⟩ := p
    cases os with
    | none =>
      rw [buildTL] at hsplit
      exact ih cnt pre hsplit
    | some s =>
      rw [buildTL] at hsplit
      cases pre with
      | nil =>
        simp only [List.nil_append, List.cons.injEq] at hsplit
        rw [← hsplit.1]
        simp
      | cons q pre' =>
        simp only [List.cons_append, List.cons.injEq] at hsplit
        obtain ⟨hq, htail⟩ := hsplit
        have htl' : e.count = (if e.status = s then cnt s + 1 else cnt e.status) +
            pre'.countP (fun x => x.status == e.status) + 1 := ih _ pre' htail
        rw [List.countP_cons, ← hq]
        by_cases hst : e.status = s
        · have hif : (if ((⟨d, s, cnt s + 1⟩ : TLEntry).status == e.status) = true
              then 1 else 0) = 1 := by
            simp [hst]
          rw [hif]
          rw [if_pos hst] at htl'
          rw [← hst] at htl'
          omega
        · have hne : s ≠ e.status := fun hh => hst hh.symm
          have hif : (if ((⟨d, s, cnt s + 1⟩ : TLEntry).status == e.status) = true
              then 1 else 0) = 0 := by
            simp [hne]
          rw [if_neg hst] at htl'
          rw [hif]
          omega

/-- Claim C5. When both the Date and Status roles resolve and the
timeline chart is produced, its points are ordered by non-decreasing
date; within each status the emitted count sequence is non-decreasing
along the chart; each point carries the running count of its status,
namely one more than the number of earlier points of the same status;
and every point stems from a row whose date value parses and whose
status value is present, so no row with an invalid date contributes. -/
theorem C5_timeline (parse : String → Option Int)
    (column_map : List (String × String)) (rows : List Row) :
    ∀ dc sc, get_column_if_exists column_map dateSynonyms = some dc →
      get_column_if_exists column_map statusSynonyms = some sc →
    ∀ pts, create_timeline_chart parse column_map rows = .chart pts →
      pts.Pairwise (fun a b => a.date ≤ b.date)
      ∧ pts.Pairwise (fun a b => a.status = b.status → a.count ≤ b.count)
      ∧ (∀ pre e post, pts = pre ++ e :: post →
          e.count = pre.countP (fun x => x.status == e.status) + 1)
      ∧ (∀ e ∈ pts, ∃ r ∈ rows, (getVal r dc).bind parse = some e.date
          ∧ getVal r sc = some e.status) := by
  intro dc sc hdc hsc pts hpts
  simp only [create_timeline_chart, hdc, hsc] at hpts
  by_cases h1 : (rows.filterMap (fun r =>
      ((getVal r dc).bind parse).map (fun d => (d, getVal r sc)))).isEmpty = true
  · rw [if_pos h1] at hpts
    exact absurd hpts (by simp)
  · rw [if_neg h1] at hpts
    by_cases h2 : (buildTL (sortLe (fun a b => decide (a.1 ≤ b.1))
        (rows.filterMap (fun r =>
          ((getVal r dc).bind parse).map (fun d => (d, getVal r sc)))))
        (fun _ => 0)).isEmpty = true
    · rw [if_pos h2] at hpts
      exact absurd hpts (by simp)
    · rw [if_neg h2] at hpts
      have hpts' : pts = buildTL (sortLe (fun a b => decide (a.1 ≤ b.1))
          (rows.filterMap (fun r =>
            ((getVal r dc).bind parse).map (fun d => (d, getVal r sc)))))
          (fun _ => 0) := by
        cases hpts
        rfl
      subst hpts'
      have hsorted : (sortLe (fun a b : Int × Option String => decide (a.1 ≤ b.1))
          (rows.filterMap (fun r =>
            ((getVal r dc).bind parse).map (fun d => (d, getVal r sc))))).Pairwise
          (fun p q => p.1 ≤ q.1) := by
        have := sortLe_pairwise (fun a b : Int × Option String => decide (a.1 ≤ b.1))
          (by intro a b hab
              simp only [decide_eq_false_iff_not, not_le] at hab
              exact decide_eq_true (le_of_lt hab))
          (by intro a b c hab hbc
              simp only [decide_eq_true_eq] at hab hbc
              exact decide_eq_true (le_trans hab hbc))
          (rows.filterMap (fun r =>
            ((getVal r dc).bind parse).map (fun d => (d, getVal r sc))))
        refine this.imp ?_
        intro a b hab
        simpa using hab
      refine ⟨buildTL_pairwise_date _ _ hsorted, ?_, ?_, ?_⟩
      · refine (buildTL_pairwise_status _ _).imp ?_
        intro a b hab hst
        exact le_of_lt (hab hst)
      · intro pre e post hsplit
        have := buildTL_count_eq _ _ pre e post hsplit
        simpa using this
      · intro e he
        have h₁ := mem_buildTL _ _ _ he
        have h₂ : (e.date, some e.status) ∈ rows.filterMap (fun r =>
            ((getVal r dc).bind parse).map (fun d => (d, getVal r sc))) :=
          ((sortLe_perm _ _).mem_iff).1 h₁
        rcases List.mem_filterMap.1 h₂ with ⟨r, hr, hmap⟩
        rcases Option.map_eq_some'.1 hmap with ⟨d, hd, hpair⟩
        have hdate : d = e.date := congrArg Prod.fst hpair
        have hstat : getVal r sc = some e.status := congrArg Prod.snd hpair
        exact ⟨r, hr, by rw [← hdate]; exact hd, hstat⟩

/-- Witness for claim C5: two parseable dates out of three rows, the
unparseable one dropped, points sorted ascending with running counts. -/
theorem C5_timeline_witness :
    let parse : String → Option Int := fun s =>
      if s = "d1" then some 1 else if s = "d2" then some 2 else none
    let cmap : List (String × String) := [("date", "date"), ("status", "status")]
    let rows : List Row :=
      [[("date", some "d2"), ("status", some "Applied")],
       [("date", some "bad"), ("status", some "Rejected")],
       [("date", some "d1"), ("status", some "Applied")]]
    (([⟨1, "Applied", 1⟩, ⟨2, "Applied", 2⟩] : List TLEntry).Pairwise
        (fun a b => a.date ≤ b.date))
      ∧ (([⟨1, "Applied", 1⟩, ⟨2, "Applied", 2⟩] : List TLEntry).Pairwise
        (fun a b => a.status = b.status → a.count ≤ b.count))
      ∧ (∀ pre e post,
          ([⟨1, "Applied", 1⟩, ⟨2, "Applied", 2⟩] : List TLEntry) = pre ++ e :: post →
          e.count = pre.countP (fun x => x.status == e.status) + 1)
      ∧ (∀ e ∈ ([⟨1, "Applied", 1⟩, ⟨2, "Applied", 2⟩] : List TLEntry),
          ∃ r ∈ rows, (getVal r "date").bind parse = some e.date
            ∧ getVal r "status" = some e.status) := by
  intro parse cmap rows
  exact C5_timeline parse cmap rows "date" "status" (by decide) (by decide)
    [⟨1, "Applied", 1⟩, ⟨2, "Applied", 2⟩] (by decide)

/-- A cell after the date-coercion step: either still a raw value or the
result of pandas to_datetime, with none modelling the NaT marker. -/
inductive DCell
  | rawCell (v : Option String)
  | dateCell (v : Option Int)
deriving DecidableEq

/-- A row as it looks after the date column may have been coerced. -/
abbrev DRow := List (String × DCell)

/-- A fetched row before any coercion, embedded into DRow. -/
def toDRow (r : Row) : DRow := r.map (fun kv => (kv.1, DCell.rawCell kv.2))

/-- The in-place assignment df[date_col] = pd.to_datetime(df[date_col],
errors=coerce) (src/main7.py line 309): every cell of the date column is
replaced by its parse result, unparseable or missing values becoming the
NaT marker; all other columns keep their raw values. -/
def coerceDates (parse : String → Option Int) (date_col : String)
    (r : Row) : DRow :=
  r.map (fun kv =>
    if kv.1 = date_col then (kv.1, DCell.dateCell (kv.2.bind parse))
    else (kv.1, DCell.rawCell kv.2))

/-- Model of strftime on a parsed date; only that the label is derived
from the parsed value matters to the claims, not the exact text. -/
def fmtDate (d : Int) : String := "date " ++ toString d

/-- Embedding of get_recent_activity (src/main7.py lines 304-315).  The
result carries the label AND the record set as it leaves the function,
because the assignment at line 309 mutates the DataFrame shared with the
caller: build_dashboard_content keeps using that mutated object for the
charts and the table.  The most-recent label is the maximum of the
successfully parsed dates; when no date parses the label is the error
text, and when the Date role is absent the rows are left untouched. -/
def get_recent_activity (parse : String → Option Int)
    (column_map : List (String × String)) (rows : List Row) :
    String × List DRow :=
  match get_column_if_exists column_map dateSynonyms with
  | none => ("No date information", rows.map toDRow)
  | some date_col =>
    let mutated := rows.map (coerceDates parse date_col)
    let parsedDates := rows.filterMap (fun r => (getVal r date_col).bind parse)
    match parsedDates.max? with
    | none => ("Date format error", mutated)
    | some d => (fmtDate d, mutated)

/-- Claim C3 (evaluation of the code at the failing input). A row whose
date does not parse is excluded from the most-recent-date aggregate, but
the record set is NOT left unchanged: get_recent_activity overwrites the
date column of the shared record set with parse results, so the table
receives the invalid marker instead of the raw text.  The second part
shows the aggregate exclusion on a mixed dataset: the label comes from
the only parseable date while the failing row keeps only its marker. -/
theorem C3_recent_activity_mutates_table :
    (get_recent_activity (fun _ => none) [("date", "date")]
        [[("date", some "not-a-date")]]
      = ("Date format error", [[("date", DCell.dateCell none)]]))
    ∧ ([[("date", some "not-a-date")]] : List Row).map toDRow
        ≠ [[("date", DCell.dateCell none)]]
    ∧ (get_recent_activity
        (fun s => if s = "2024-01-01" then some 738886 else none)
        [("date", "date")]
        [[("date", some "2024-01-01")], [("date", some "bad")]]
      = (fmtDate 738886,
         [[("date", DCell.dateCell (some 738886))],
          [("date", DCell.dateCell none)]])) := by
  refine ⟨by decide, by decide, by decide⟩

/-- A fetched table: header list plus rows. -/
structure Frame where
  headers : List String
  rows : List Row
deriving DecidableEq

/-- The normalisation applied right after the fetch (src/main7.py line
461): column names trimmed and lower-cased, rows re-keyed accordingly. -/
def normalizeFrame (df : Frame) : Frame :=
  { headers := df.headers.map normalizeHeader,
    rows := df.rows.map (fun r => r.map (fun kv => (normalizeHeader kv.1, kv.2))) }

/-- Keywords marking link-like columns (src/main7.py line 470). -/
def linkKeywords : List String := ["link", "job page", "resume"]

/-- The link-column reformat (src/main7.py lines 471-473): each value of
a column whose name contains a link keyword becomes a markdown link; an
empty or missing value becomes the empty string, never null. -/
def reformat_links (rows : List Row) : List Row :=
  rows.map (fun r => r.map (fun kv =>
    if linkKeywords.any (fun kw => containsSeq kw.data (lowerStr kv.1).data) then
      (kv.1, some (match kv.2 with
        | none => ""
        | some s => if stripStr s = "" then "" else "[link](" ++ s ++ ")"))
    else kv))

/-- Result of building the status pie: a populated pie or the
create_empty_figure placeholder with its message. -/
inductive PieResult
  | placeholder (msg : String)
  | pie (counts : List (String × Nat))
deriving DecidableEq

/-- Embedding of create_status_pie (src/main7.py lines 317-337) at the
level of its data: value counts of the raw status text. -/
def create_status_pie (column_map : List (String × String))
    (rows : List Row) : PieResult :=
  match get_column_if_exists column_map statusSynonyms with
  | none => .placeholder "Status distribution not available - no status column found"
  | some status_col =>
    let counts := value_counts (rows.filterMap (fun r => getVal r status_col))
    if counts.isEmpty then .placeholder "No status data available"
    else .pie counts

/-- The view model assembled by build_dashboard_content on a successful
refresh (src/main7.py lines 475-611): headline counters, the three chart
descriptors, the status filter options and the table rows.  The table
receives the record set as left behind by get_recent_activity. -/
structure ViewModel where
  total_applications : Nat
  interview_count : Nat
  approved_count : Nat
  rejected_count : Nat
  success_rate : String
  status_pie : PieResult
  timeline_chart : TimelineResult
  company_chart : CompanyResult
  status_options : List String
  table_rows : List DRow
deriving DecidableEq

/-- Assembly of the view model from a fetched, normalised record set and
a column map (src/main7.py lines 469-611).  The charts are stated over
the link-reformatted rows; the date coercion performed inside
get_recent_activity is idempotent for the later to_datetime of the
timeline and touches no status or company column, so those functions are
applied to the pre-coercion rows they are extensionally computed from. -/
def mkViewModel (parse : String → Option Int)
    (column_map : List (String × String)) (rows : List Row) : ViewModel :=
  let rows := reformat_links rows
  { total_applications := rows.length
    interview_count := count_status column_map rows interviewPatterns
    approved_count := count_status column_map rows approvedPatterns
    rejected_count := count_status column_map rows rejectedPatterns
    success_rate := calculate_success_rate column_map rows
    status_pie := create_status_pie column_map rows
    timeline_chart := create_timeline_chart parse column_map rows
    company_chart := create_company_distribution column_map rows
    status_options :=
      match get_column_if_exists column_map statusSynonyms with
      | none => []
      | some c => firstKeys (rows.filterMap (fun r => getVal r c))
    table_rows := (get_recent_activity parse column_map rows).2 }

/-- What the dashboard-content container shows after a build: a view
model, or the inline error message of the except branch of
build_dashboard_content (src/main7.py lines 613-615). -/
inductive DashView
  | content (vm : ViewModel)
  | errorView (msg : String)
deriving DecidableEq

/-- Embedding of build_dashboard_content (src/main7.py lines 452-615).
The fetch (stored url read, download, CSV parse) is summarised by the
fetch argument; stored_map is the persisted alias mapping, with none
modelling a read failure of the side file, in which case the map is
derived fresh from the headers of the current fetch (lines 462-467).
Any fetch failure lands in the except branch of lines 613-615 and is
surfaced as the inline error text. -/
def build_dashboard_content (username : String) (parse : String → Option Int)
    (fetch : Except String Frame)
    (stored_map : Option (List (String × String))) : DashView :=
  match fetch with
  | .error e =>
    .errorView ("Error loading dashboard for " ++ username ++ ": " ++ e)
  | .ok df =>
    let ndf := normalizeFrame df
    let column_map :=
      match stored_map with
      | some m => m
      | none => derived_column_map ndf.headers
    .content (mkViewModel parse column_map ndf.rows)

/-- Embedding of update_dashboard_content (src/main7.py lines 642-650):
every refresh trigger rebuilds the content from scratch and replaces the
children of the dashboard-content container with the result, whatever
the previous content was. -/
def update_dashboard_content (prev : DashView) (username : String)
    (parse : String → Option Int) (fetch : Except String Frame)
    (stored_map : Option (List (String × String))) : DashView :=
  build_dashboard_content username parse fetch stored_map

/-- Claim C4 (counterexample). A refresh failure arriving after a
successful first build does not retain the previously displayed view
model: the inline error view replaces it. -/
theorem C4_refresh_failure_counterexample :
    update_dashboard_content
        (build_dashboard_content "u" (fun _ => none)
          (Except.ok ⟨["Status"], [[("status", some "Applied")]]⟩) none)
        "u" (fun _ => none) (Except.error "boom") none
      = DashView.errorView "Error loading dashboard for u: boom"
    ∧ update_dashboard_content
        (build_dashboard_content "u" (fun _ => none)
          (Except.ok ⟨["Status"], [[("status", some "Applied")]]⟩) none)
        "u" (fun _ => none) (Except.error "boom") none
      ≠ build_dashboard_content "u" (fun _ => none)
          (Except.ok ⟨["Status"], [[("status", some "Applied")]]⟩) none := by
  refine ⟨rfl, by decide⟩

/-- Claim C4 (amended). The displayed content after a refresh depends
only on the outcome of the current cycle, never on the previous state: a
failed cycle always surfaces the inline error state, whether or not a
prior successful build exists, and a successful cycle always installs
the freshly built view model. -/
theorem C4_refresh_replaces_content (prev prev₂ : DashView)
    (username : String) (parse : String → Option Int)
    (fetch : Except String Frame)
    (stored_map : Option (List (String × String))) :
    update_dashboard_content prev username parse fetch stored_map =
      update_dashboard_content prev₂ username parse fetch stored_map
    ∧ (∀ e, fetch = .error e →
        update_dashboard_content prev username parse fetch stored_map =
          .errorView ("Error loading dashboard for " ++ username ++ ": " ++ e))
    ∧ (∀ df, fetch = .ok df →
        ∃ vm, update_dashboard_content prev username parse fetch stored_map =
          .content vm) := by
  refine ⟨rfl, ?_, ?_⟩
  · intro e he
    rw [update_dashboard_content, he]
    rfl
  · intro df hdf
    rw [update_dashboard_content, hdf]
    exact ⟨_, rfl⟩

/-- Witness for claim C4: a failing fetch replaces a previously shown
error view with the inline error of the current cycle. -/
theorem C4_refresh_replaces_content_witness :
    update_dashboard_content (DashView.errorView "old") "u" (fun _ => none)
      (Except.error "boom") none
      = DashView.errorView "Error loading dashboard for u: boom" :=
  (C4_refresh_replaces_content (DashView.errorView "old")
    (DashView.errorView "old") "u" (fun _ => none)
    (Except.error "boom") none).2.1 "boom" rfl

/-- Claim C8. When reading the persisted alias-mapping side file fails,
the refresh does not fail: the alias mapping is derived fresh from the
headers of the current fetch and the rest of the pipeline proceeds with
that derived mapping, producing a content view and never the inline
error view. -/
theorem C8_persistence_fallback (username : String)
    (parse : String → Option Int) (df : Frame) :
    build_dashboard_content username parse (Except.ok df) none =
      DashView.content (mkViewModel parse
        (derived_column_map (normalizeFrame df).headers) (normalizeFrame df).rows)
    ∧ (∀ msg, build_dashboard_content username parse (Except.ok df) none ≠
        DashView.errorView msg) := by
  refine ⟨rfl, ?_⟩
  intro msg h
  simp [build_dashboard_content] at h

/-- Witness for claim C8: a concrete fetch with a failed side-file read
still builds a content view from the freshly derived mapping. -/
theorem C8_persistence_fallback_witness :
    build_dashboard_content "u" (fun _ => none)
      (Except.ok ⟨[" Status "], [[("status", some "Applied")]]⟩) none =
    DashView.content (mkViewModel (fun _ => none)
      (derived_column_map
        (normalizeFrame ⟨[" Status "], [[("status", some "Applied")]]⟩).headers)
      (normalizeFrame ⟨[" Status "], [[("status", some "Applied")]]⟩).rows) :=
  (C8_persistence_fallback "u" (fun _ => none)
    ⟨[" Status "], [[("status", some "Applied")]]⟩).1

/-- The marker between which and the next slash the sheet id lives. -/
def sepD : List Char := ['/', 'd', '/']

/-- Suffix after the first occurrence of sep, none when sep does not
occur.  Together with the later cut at the next slash, this models
s.split(sep)[1].split("/")[0]: the second Python split part is the text
between the first and second occurrence of sep, and any later occurrence
of the marker begins with a slash, so cutting the whole suffix at the
first slash yields the same text. -/
def splitAfterFirst (sep : List Char) : List Char → Option (List Char)
  | [] => none
  | c :: cs =>
    if sep.isPrefixOf (c :: cs) then some ((c :: cs).drop sep.length)
    else splitAfterFirst sep cs

/-- Embedding of sheet_url.split("/d/")[1].split("/")[0] (src/main7.py
line 458, src/app.py line 222). -/
def extract_sheet_id (url : String) : Option String :=
  (splitAfterFirst sepD url.data).map
    (fun rest => String.mk (rest.takeWhile (fun ch => ch != '/')))

/-- The fixed CSV export-endpoint template (src/main7.py line 459). -/
def csv_export_url (sheet_id : String) : String :=
  "https://docs.google.com/spreadsheets/d/" ++ sheet_id ++ "/export?format=csv"

/-- The download-endpoint step as fallible code: when the marker is
absent, indexing the split result raises IndexError, which the
surrounding try/except of both call sites turns into an inline fetch
error rather than a crash. -/
def fetch_csv_url (sheet_url : String) : Except String String :=
  match extract_sheet_id sheet_url with
  | some sid => .ok (csv_export_url sid)
  | none => .error "list index out of range"

theorem isPrefixOf_length (sep l : List Char)
    (h : sep.isPrefixOf l = true) : sep.length ≤ l.length :=
  ( List.isPrefixOf_iff_prefix.1 h).length_le

theorem containsSeq_length (sep : List Char) :
    ∀ l, containsSeq sep l = true → sep.length ≤ l.length := by
  intro l
  induction l with
  | nil =>
    intro h
    rw [containsSeq, List.isEmpty_iff] at h
    simp [h]
  | cons c cs ih =>
    intro h
    rw [containsSeq, Bool.or_eq_true] at h
    rcases h with h | h
    · exact isPrefixOf_length _ _ h
    · exact le_trans (ih h) (by simp)

theorem splitAfterFirst_eq_none (sep : List Char) :
    ∀ l, containsSeq sep l = false → splitAfterFirst sep l = none := by
  intro l
  induction l with
  | nil => intro h; rfl
  | cons c cs ih =>
    intro h
    rw [containsSeq, Bool.or_eq_false_iff] at h
    rw [splitAfterFirst, if_neg (by rw [h.1]; exact Bool.false_ne_true)]
    exact ih h.2

theorem containsSeq_split (sep : List Char) (hsep : sep ≠ []) :
    ∀ l : List Char, containsSeq sep l = true →
      ∃ pre rest, l = pre ++ sep ++ rest
        ∧ containsSeq sep (pre ++ sep.dropLast) = false
        ∧ splitAfterFirst sep l = some rest := by
  intro l
  induction l with
  | nil =>
    intro h
    rw [containsSeq, List.isEmpty_iff] at h
    exact absurd h hsep
  | cons c cs ih =>
    intro h
    by_cases hp : sep.isPrefixOf (c :: cs) = true
    · refine ⟨[], (c :: cs).drop sep.length, ?_, ?_, ?_⟩
      · have hpre : sep <+: (c :: cs) := List.isPrefixOf_iff_prefix.1 hp
        have htake : sep = (c :: cs).take sep.length :=
          List.prefix_iff_eq_take.1 hpre
        conv_lhs => rw [← List.take_append_drop sep.length (c :: cs)]
        rw [← htake]
        simp
      · rw [List.nil_append]
        cases hcs : containsSeq sep sep.dropLast with
        | false => rfl
        | true =>
          have hlen := containsSeq_length sep _ hcs
          have hpos : 0 < sep.length := List.length_pos.2 hsep
          rw [List.length_dropLast] at hlen
          omega
      · rw [splitAfterFirst, if_pos hp]
    · have h' : containsSeq sep cs = true := by
        rw [containsSeq, Bool.or_eq_true] at h
        rcases h with h | h
        · exact absurd h hp
        · exact h
      rcases ih h' with ⟨pre, rest, hl, hnc, hsp⟩
      refine ⟨c :: pre, rest, by rw [hl]; simp, ?_, ?_⟩
      · rw [List.cons_append, containsSeq, hnc, Bool.or_false]
        cases hpp : sep.isPrefixOf (c :: (pre ++ sep.dropLast)) with
        | false => rfl
        | true =>
          exfalso
          apply hp
          have h2 : sep = (c :: (pre ++ sep.dropLast)).take sep.length :=
            List.prefix_iff_eq_take.1 ( List.isPrefixOf_iff_prefix.1 hpp)
          have hglue : sep.dropLast ++ sep.getLast hsep :: rest = sep ++ rest := by
            rw [List.append_cons, List.dropLast_append_getLast hsep]
          have hdecomp : c :: cs =
              (c :: (pre ++ sep.dropLast)) ++ ([sep.getLast hsep] ++ rest) := by
            rw [hl]
            simp only [List.cons_append, List.append_assoc, List.nil_append]
            rw [hglue]
          have hlenA : sep.length ≤ (c :: (pre ++ sep.dropLast)).length := by
            have hpos : 0 < sep.length := List.length_pos.2 hsep
            simp only [List.length_cons, List.length_append, List.length_dropLast]
            omega
          have htake : (c :: cs).take sep.length =
              (c :: (pre ++ sep.dropLast)).take sep.length := by
            rw [hdecomp, List.take_append_of_le_length hlenA]
          rw [ List.isPrefixOf_iff_prefix, List.prefix_iff_eq_take, htake]
          exact h2
      · rw [splitAfterFirst, if_neg hp]
        exact hsp

/-- Claim C7. Whenever the marker occurs in the reference string, the
download endpoint is the fixed CSV export template around the identifier
that starts right after the first occurrence of the marker and runs to
the following slash; and for every reference string without the marker,
the step fails with the caught index error, surfaced as a fetch error
rather than a crash. -/
theorem C7_sheet_url_transformation (url : String) :
    (containsSeq sepD url.data = true →
      ∃ pre rest, url.data = pre ++ sepD ++ rest
        ∧ containsSeq sepD (pre ++ sepD.dropLast) = false
        ∧ fetch_csv_url url = Except.ok (csv_export_url
            (String.mk (rest.takeWhile (fun ch => ch != '/')))))
    ∧ (containsSeq sepD url.data = false →
      fetch_csv_url url = Except.error "list index out of range") := by
  constructor
  · intro h
    rcases containsSeq_split sepD (by decide) url.data h with ⟨pre, rest, h1, h2, h3⟩
    refine ⟨pre, rest, h1, h2, ?_⟩
    rw [fetch_csv_url, extract_sheet_id, h3]
    rfl
  · intro h
    rw [fetch_csv_url, extract_sheet_id, splitAfterFirst_eq_none sepD url.data h]
    rfl

/-- Witness for claim C7: a real sheet URL produces the export endpoint
for the identifier between the marker and the following slash, and a URL
without the marker produces the caught fetch error. -/
theorem C7_sheet_url_transformation_witness :
    (∃ pre rest,
      ("https://docs.google.com/spreadsheets/d/ABC123xyz/edit" : String).data =
        pre ++ sepD ++ rest
      ∧ containsSeq sepD (pre ++ sepD.dropLast) = false
      ∧ fetch_csv_url "https://docs.google.com/spreadsheets/d/ABC123xyz/edit" =
          Except.ok (csv_export_url
            (String.mk (rest.takeWhile (fun ch => ch != '/')))))
    ∧ fetch_csv_url "https://example.com/sheet" =
        Except.error "list index out of range" :=
  ⟨(C7_sheet_url_transformation
      "https://docs.google.com/spreadsheets/d/ABC123xyz/edit").1 (by decide),
   (C7_sheet_url_transformation "https://example.com/sheet").2 (by decide)⟩

end JobTracker
